import Mathlib

/-!
Verification of the launch and configuration logic of the repository.

Shallow embedding of:
  src/torch_xla/distributed/sm_dist.py   — topology resolution from the
    resource manifest, environment projection, argument forwarding;
  src/torch_xla/__training_compiler__.py — the compiler flag setters and
    the hyper-parameter to configuration mapping.

Modelling conventions: Python strings are Lean `String`; Python lists are
Lean `List`; the process environment (`os.environ`) is an association
list from variable names to values; raising an exception is modelled by
returning `none` or `Except.error`; a logged warning is modelled as a
`Bool` component of the result.
-/

namespace PyModel

/-- Python `s.split(sep)` for a single-character separator, on the
character list: splits at every occurrence of the separator and keeps
empty fragments, so the empty string yields one empty fragment. -/
def splitChar (sep : Char) : List Char → List (List Char)
  | [] => [[]]
  | c :: rest =>
      let r := splitChar sep rest
      if c = sep then [] :: r
      else match r with
        | ts :: tss => (c :: ts) :: tss
        | [] => [[c]]

/-- Python `s.split(sep)` for a single-character separator, on strings. -/
def pySplit (s : String) (sep : Char) : List String :=
  (splitChar sep s.data).map (fun cs => ⟨cs⟩)

/-- Python `s.startswith(p)`. -/
def pyStartsWith (s p : String) : Bool := p.data.isPrefixOf s.data

/-- Truthiness of Python `os.environ.get(key, False)`-style values: an
absent value (`None`/`False`) and the empty string are falsy. -/
def pyTruthy : Option String → Bool
  | none => false
  | some v => v ≠ ""

/-- Lookup in a Python dict modelled as an association list
(`d.get(k)` / `os.environ.get(k)`). -/
def dictGet {α : Type} : List (String × α) → String → Option α
  | [], _ => none
  | (k', v) :: rest, k => if k' = k then some v else dictGet rest k

/-- The process environment, `os.environ`. -/
abbrev Env := List (String × String)

/-- Read an environment variable: `os.environ.get(k)`. -/
def getEnv (env : Env) (k : String) : Option String := dictGet env k

/-- Write an environment variable, `os.environ[k] = v`: replaces the
value if the key is present, otherwise appends the binding. -/
def setEnv : Env → String → String → Env
  | [], k, v => [(k, v)]
  | (k', v') :: rest, k, v =>
      if k' = k then (k, v) :: rest else (k', v') :: setEnv rest k v

theorem dictGet_nil {α : Type} (k : String) : dictGet ([] : List (String × α)) k = none := rfl

theorem getEnv_setEnv_self (env : Env) (k v : String) :
    getEnv (setEnv env k v) k = some v := by
  induction env with
  | nil => simp [getEnv, setEnv, dictGet]
  | cons p rest ih =>
      obtain ⟨k', v'⟩ := p
      by_cases h : k' = k
      · simp [getEnv, setEnv, dictGet, h]
      · simpa [getEnv, setEnv, dictGet, h] using ih

theorem getEnv_setEnv_ne (env : Env) (k v k' : String) (h : k' ≠ k) :
    getEnv (setEnv env k v) k' = getEnv env k' := by
  have h' : k ≠ k' := fun hh => h hh.symm
  induction env with
  | nil => simp [getEnv, setEnv, dictGet, h']
  | cons p rest ih =>
      obtain ⟨k₀, v₀⟩ := p
      by_cases h0 : k₀ = k
      · subst h0
        simp [getEnv, setEnv, dictGet, h']
      · by_cases h1 : k₀ = k'
        · subst h1
          simp [getEnv, setEnv, dictGet, h0]
        · simpa [getEnv, setEnv, dictGet, h0, h1] using ih

end PyModel

namespace SmDist

open PyModel

/-- The resource manifest as the launcher uses it after reading both
keys: `config['current_host']` and `config['hosts']`
(sm_dist.py, lines 31 and 34). -/
structure Manifest where
  current_host : String
  hosts : List String
deriving DecidableEq

/-- The parsed resource-manifest JSON object, before key access: either
key may be missing, in which case the subscript raises `KeyError`. -/
structure RawConfig where
  current_host : Option String
  hosts : Option (List String)
deriving DecidableEq

/-- The resolved topology: the values the launcher computes and then
projects into `XRT_HOST_ORDINAL`, `XRT_SHARD_WORLD_SIZE`, `XRT_WORKERS`
and (optionally) `XRT_MESH_SERVICE_ADDRESS`. -/
structure Topology where
  rank : Nat
  world_size : Nat
  xrt_workers : List String
  mesh_service_address : Option String
deriving DecidableEq

/-- One entry of the worker list:
`"localservice:%s;%s:%s" % (i, host, args.worker_port)` (sm_dist.py line 37). -/
def workerEntry (i : Nat) (host : String) (worker_port : Nat) : String :=
  "localservice:" ++ toString i ++ ";" ++ host ++ ":" ++ toString worker_port

/-- The loop of sm_dist.py lines 34-37: iterate over `hosts` with index
`i`, updating `rank` whenever `current_host == host` and appending one
worker entry per host.  Arguments: remaining hosts, current index `i`,
current `rank` accumulator; result: final `(rank, xrt_workers)`. -/
def topologyLoop (current : String) (worker_port : Nat) :
    List String → Nat → Nat → Nat × List String
  | [], _, r => (r, [])
  | h :: t, i, r =>
      let rest := topologyLoop current worker_port t (i + 1) (if current = h then i else r)
      (rest.1, workerEntry i h worker_port :: rest.2)

/-- Topology resolution, sm_dist.py lines 31-42: `rank` starts at 0 and
is set by the loop, `world_size` is `len(config['hosts'])`, and the mesh
service address `hosts[0] + ":" + str(args.mesh_service_port)` is
produced only when `len(config['hosts']) > 1`. -/
def resolve (m : Manifest) (worker_port mesh_service_port : Nat) : Topology :=
  let rw := topologyLoop m.current_host worker_port m.hosts 0 0
  { rank := rw.1
    world_size := m.hosts.length
    xrt_workers := rw.2
    mesh_service_address :=
      if m.hosts.length > 1 then
        m.hosts.head?.map (fun h => h ++ ":" ++ toString mesh_service_port)
      else none }

/-- Topology resolution from the raw JSON object: `config['current_host']`
(line 31) and `config['hosts']` (line 34) raise `KeyError` (modelled as
`none`) when the key is missing; otherwise resolution proceeds. -/
def resolveConfig (cfg : RawConfig) (worker_port mesh_service_port : Nat) : Option Topology :=
  match cfg.current_host with
  | none => none
  | some current =>
      match cfg.hosts with
      | none => none
      | some hosts => some (resolve ⟨current, hosts⟩ worker_port mesh_service_port)

/-- Environment projection, sm_dist.py lines 38-42: write the four XRT
variables, `XRT_WORKERS` as the `"|"`-join of the worker entries, and
`XRT_MESH_SERVICE_ADDRESS` only when it was produced. -/
def projectTopology (env : Env) (t : Topology) : Env :=
  let e1 := setEnv env "XRT_HOST_ORDINAL" (toString t.rank)
  let e2 := setEnv e1 "XRT_SHARD_WORLD_SIZE" (toString t.world_size)
  let e3 := setEnv e2 "XRT_WORKERS" (String.intercalate "|" t.xrt_workers)
  match t.mesh_service_address with
  | some addr => setEnv e3 "XRT_MESH_SERVICE_ADDRESS" addr
  | none => e3

/-- The argument forwarder, sm_dist.py lines 53-58: walk `rem_args` two
at a time; a pair with value `"True"` emits the flag alone, a pair with
value `"False"` emits nothing, any other pair emits flag and value.  On
an odd-length tail the read `rem_args[i + 1]` raises `IndexError`,
modelled as `none`. -/
def forward : List String → Option (List String)
  | [] => some []
  | [_] => none
  | arg :: value :: rest =>
      (forward rest).map (fun out =>
        if value = "True" then arg :: out
        else if value = "False" then out
        else arg :: value :: out)

/-- Flatten a list of `(flag, value)` pairs into the flat alternating
argument list; every even-length flat list is of this form. -/
def flattenPairs : List (String × String) → List String
  | [] => []
  | (f, v) :: ps => f :: v :: flattenPairs ps

/-- The per-pair emission rule as the spec states it: `"True"` emits the
flag alone, `"False"` emits nothing, otherwise flag then value. -/
def specEmitPair (p : String × String) : List String :=
  if p.2 = "True" then [p.1]
  else if p.2 = "False" then []
  else [p.1, p.2]

/-- The forwarder as the spec states it: concatenate the per-pair
emissions in pair order. -/
def specForward : List (String × String) → List String
  | [] => []
  | p :: ps => specEmitPair p ++ specForward ps

end SmDist

namespace TrainingCompiler

open PyModel

/-- `TrainingCompilerConfig._set_flags` (__training_compiler__.py lines
127-136): read `os.environ.get(key, False)`; when that value is truthy,
log a warning and leave the environment alone, otherwise write
`os.environ[key] = str(value)`.  The Bool records whether the warning
was logged. -/
def set_flags (env : Env) (key value : String) : Env × Bool :=
  let pre := (getEnv env key).getD ""
  if pre ≠ "" then (env, true)
  else (setEnv env key value, false)

/-- `TrainingCompilerConfig._set_xla_flags` (__training_compiler__.py
lines 101-124): when `XLA_FLAGS` is non-empty, scan its space-separated
tokens and return with a warning as soon as one starts with `--key`;
otherwise append `" --key=value"` (or `" --key"` when the value is
falsy); when `XLA_FLAGS` is empty or unset, write `"--key=value"` (or
`"--key"`).  The Bool records whether the warning was logged. -/
def set_xla_flags (env : Env) (key : String) (value : Option String) : Env × Bool :=
  let parent := "XLA_FLAGS"
  let pre := (getEnv env parent).getD ""
  if pre ≠ "" then
    if (pySplit pre ' ').any (fun t => pyStartsWith t ("--" ++ key)) then (env, true)
    else if pyTruthy value then
      (setEnv env parent (pre ++ " --" ++ key ++ "=" ++ value.getD ""), false)
    else (setEnv env parent (pre ++ " --" ++ key), false)
  else if pyTruthy value then
    (setEnv env parent ("--" ++ key ++ "=" ++ value.getD ""), false)
  else (setEnv env parent ("--" ++ key), false)

/-- A token of `XLA_FLAGS` that carries exactly the key `key`: either
the bare `--key` or a `--key=...` assignment.  This renders the claim
phrase "that exact key is present among the space-separated tokens". -/
def exactKeyToken (key t : String) : Bool :=
  t == "--" ++ key || pyStartsWith t ("--" ++ key ++ "=")

/-- The exact key `key` occurs among the space-separated tokens of the
flags string `pre`. -/
def exactKeyPresent (pre key : String) : Bool :=
  (pySplit pre ' ').any (exactKeyToken key)

/-- A decoded hyper-parameter value as `_load` produces it: a JSON
boolean, number, or a plain string. -/
inductive PyVal where
  | bool : Bool → PyVal
  | str : String → PyVal
  | num : Int → PyVal
deriving DecidableEq

/-- Python truthiness of a decoded hyper-parameter value. -/
def pyTruthyVal : PyVal → Bool
  | .bool b => b
  | .str s => s ≠ ""
  | .num n => n ≠ 0

/-- The attributes `map_hp_to_config` leaves on the object: `enabled` is
always assigned; `debug` only inside `if self.enabled:`. -/
structure HPConfig where
  enabled : PyVal
  debug : Option PyVal
deriving DecidableEq

/-- `TrainingCompilerConfig.map_hp_to_config` (__training_compiler__.py
lines 70-80): `self.enabled = self.params.get(HP_ENABLE_COMPILER, False)`;
`self.debug` is assigned only when `self.enabled` is truthy; the final
log statement evaluates the f-string `f"debug={self.debug}"`, which
reads `self.debug` and raises `AttributeError` when it was never
assigned. -/
def map_hp_to_config (params : List (String × PyVal)) : Except String HPConfig :=
  let enabled := (dictGet params "sagemaker_training_compiler_enabled").getD (PyVal.bool false)
  let debug : Option PyVal :=
    if pyTruthyVal enabled then
      some ((dictGet params "sagemaker_training_compiler_debug_mode").getD (PyVal.bool false))
    else none
  match debug with
  | none => Except.error "AttributeError"
  | some d => Except.ok { enabled := enabled, debug := some d }

/-- `TrainingCompilerConfig.__init__` (__training_compiler__.py lines
31-51), up to and including `map_hp_to_config`: skip everything when
already configured or when `SM_FRAMEWORK_PARAMS` is absent or empty
(`none`); otherwise filter the parsed parameters to the keys starting
with the `sagemaker_training_compiler_` prefix and, when any remain,
run `map_hp_to_config`.  The parsed JSON object is taken as an
association list of already `_load`-decoded values.  The subsequent
`configure_compiler` call (GPU queries and flag writes) lies outside
the modelled fragment and is not reached on the error path. -/
def initTCC (preconfigured : Bool) (sm_framework_params : Option (List (String × PyVal))) :
    Except String (Option HPConfig) :=
  if preconfigured then Except.ok none
  else
    match sm_framework_params with
    | none => Except.ok none
    | some all_params =>
        let params := all_params.filter
          (fun p => pyStartsWith p.1 "sagemaker_training_compiler_")
        if params.isEmpty then Except.ok none
        else (map_hp_to_config params).map some

end TrainingCompiler

namespace SmDist

open PyModel

theorem topologyLoop_fst_of_not_mem (c : String) (wp : Nat) (l : List String) :
    ∀ (i r : Nat), c ∉ l → (topologyLoop c wp l i r).1 = r := by
  induction l with
  | nil => intro i r _; rfl
  | cons h t ih =>
      intro i r hmem
      have hch : ¬ c = h := by
        intro hh; subst hh; exact hmem (List.mem_cons_self c t)
      have ht : c ∉ t := fun hh => hmem (List.mem_cons_of_mem h hh)
      show (topologyLoop c wp t (i + 1) (if c = h then i else r)).1 = r
      rw [if_neg hch]
      exact ih (i + 1) r ht

theorem topologyLoop_fst_of_count_one (c : String) (wp : Nat) (l : List String) :
    ∀ (i r : Nat), l.count c = 1 → (topologyLoop c wp l i r).1 = i + l.indexOf c := by
  induction l with
  | nil => intro i r h; simp [List.count_nil] at h
  | cons hd t ih =>
      intro i r hcount
      by_cases hch : c = hd
      · subst hch
        have ht0 : t.count c = 0 := by
          rw [List.count_cons_self] at hcount
          omega
        have hnot : c ∉ t := List.count_eq_zero.mp ht0
        show (topologyLoop c wp t (i + 1) (if c = c then i else r)).1 = i + (c :: t).indexOf c
        rw [if_pos rfl, topologyLoop_fst_of_not_mem c wp t (i + 1) i hnot,
          List.indexOf_cons_self]
        omega
      · have htc : t.count c = 1 := by
          rwa [List.count_cons_of_ne hch] at hcount
        show (topologyLoop c wp t (i + 1) (if c = hd then i else r)).1 = i + (hd :: t).indexOf c
        rw [if_neg hch, ih (i + 1) r htc, List.indexOf_cons_ne t (fun hh => hch hh.symm)]
        omega

theorem topologyLoop_snd_indep (c c' : String) (wp : Nat) (l : List String) :
    ∀ (i r r' : Nat), (topologyLoop c wp l i r).2 = (topologyLoop c' wp l i r').2 := by
  induction l with
  | nil => intro i r r'; rfl
  | cons h t ih =>
      intro i r r'
      show workerEntry i h wp :: (topologyLoop c wp t (i + 1) (if c = h then i else r)).2
        = workerEntry i h wp :: (topologyLoop c' wp t (i + 1) (if c' = h then i else r')).2
      rw [ih (i + 1) (if c = h then i else r) (if c' = h then i else r')]

theorem getEnv_projectTopology_ordinal (env : Env) (t : Topology) :
    getEnv (projectTopology env t) "XRT_HOST_ORDINAL" = some (toString t.rank) := by
  have h2 : ("XRT_HOST_ORDINAL" : String) ≠ "XRT_SHARD_WORLD_SIZE" := by decide
  have h3 : ("XRT_HOST_ORDINAL" : String) ≠ "XRT_WORKERS" := by decide
  have h4 : ("XRT_HOST_ORDINAL" : String) ≠ "XRT_MESH_SERVICE_ADDRESS" := by decide
  obtain ⟨rk, ws, xw, msa⟩ := t
  cases msa with
  | none =>
      show getEnv (setEnv (setEnv (setEnv env "XRT_HOST_ORDINAL" (toString rk))
        "XRT_SHARD_WORLD_SIZE" (toString ws)) "XRT_WORKERS" (String.intercalate "|" xw))
        "XRT_HOST_ORDINAL" = some (toString rk)
      rw [getEnv_setEnv_ne _ _ _ _ h3, getEnv_setEnv_ne _ _ _ _ h2, getEnv_setEnv_self]
  | some addr =>
      show getEnv (setEnv (setEnv (setEnv (setEnv env "XRT_HOST_ORDINAL" (toString rk))
        "XRT_SHARD_WORLD_SIZE" (toString ws)) "XRT_WORKERS" (String.intercalate "|" xw))
        "XRT_MESH_SERVICE_ADDRESS" addr) "XRT_HOST_ORDINAL" = some (toString rk)
      rw [getEnv_setEnv_ne _ _ _ _ h4, getEnv_setEnv_ne _ _ _ _ h3,
        getEnv_setEnv_ne _ _ _ _ h2, getEnv_setEnv_self]

theorem getEnv_projectTopology_world (env : Env) (t : Topology) :
    getEnv (projectTopology env t) "XRT_SHARD_WORLD_SIZE" = some (toString t.world_size) := by
  have h3 : ("XRT_SHARD_WORLD_SIZE" : String) ≠ "XRT_WORKERS" := by decide
  have h4 : ("XRT_SHARD_WORLD_SIZE" : String) ≠ "XRT_MESH_SERVICE_ADDRESS" := by decide
  obtain ⟨rk, ws, xw, msa⟩ := t
  cases msa with
  | none =>
      show getEnv (setEnv (setEnv (setEnv env "XRT_HOST_ORDINAL" (toString rk))
        "XRT_SHARD_WORLD_SIZE" (toString ws)) "XRT_WORKERS" (String.intercalate "|" xw))
        "XRT_SHARD_WORLD_SIZE" = some (toString ws)
      rw [getEnv_setEnv_ne _ _ _ _ h3, getEnv_setEnv_self]
  | some addr =>
      show getEnv (setEnv (setEnv (setEnv (setEnv env "XRT_HOST_ORDINAL" (toString rk))
        "XRT_SHARD_WORLD_SIZE" (toString ws)) "XRT_WORKERS" (String.intercalate "|" xw))
        "XRT_MESH_SERVICE_ADDRESS" addr) "XRT_SHARD_WORLD_SIZE" = some (toString ws)
      rw [getEnv_setEnv_ne _ _ _ _ h4, getEnv_setEnv_ne _ _ _ _ h3, getEnv_setEnv_self]

theorem getEnv_projectTopology_mesh_none (env : Env) (t : Topology)
    (h : t.mesh_service_address = none) :
    getEnv (projectTopology env t) "XRT_MESH_SERVICE_ADDRESS"
      = getEnv env "XRT_MESH_SERVICE_ADDRESS" := by
  have h1 : ("XRT_MESH_SERVICE_ADDRESS" : String) ≠ "XRT_HOST_ORDINAL" := by decide
  have h2 : ("XRT_MESH_SERVICE_ADDRESS" : String) ≠ "XRT_SHARD_WORLD_SIZE" := by decide
  have h3 : ("XRT_MESH_SERVICE_ADDRESS" : String) ≠ "XRT_WORKERS" := by decide
  obtain ⟨rk, ws, xw, msa⟩ := t
  cases msa with
  | some addr => cases h
  | none =>
      show getEnv (setEnv (setEnv (setEnv env "XRT_HOST_ORDINAL" (toString rk))
        "XRT_SHARD_WORLD_SIZE" (toString ws)) "XRT_WORKERS" (String.intercalate "|" xw))
        "XRT_MESH_SERVICE_ADDRESS" = getEnv env "XRT_MESH_SERVICE_ADDRESS"
      rw [getEnv_setEnv_ne _ _ _ _ h3, getEnv_setEnv_ne _ _ _ _ h2,
        getEnv_setEnv_ne _ _ _ _ h1]

theorem getEnv_projectTopology_mesh_some (env : Env) (t : Topology) (addr : String)
    (h : t.mesh_service_address = some addr) :
    getEnv (projectTopology env t) "XRT_MESH_SERVICE_ADDRESS" = some addr := by
  obtain ⟨rk, ws, xw, msa⟩ := t
  cases msa with
  | none => cases h
  | some addr' =>
      show getEnv (setEnv (setEnv (setEnv (setEnv env "XRT_HOST_ORDINAL" (toString rk))
        "XRT_SHARD_WORLD_SIZE" (toString ws)) "XRT_WORKERS" (String.intercalate "|" xw))
        "XRT_MESH_SERVICE_ADDRESS" addr') "XRT_MESH_SERVICE_ADDRESS" = some addr
      rw [getEnv_setEnv_self]
      exact h

/-- Claim C1: for every manifest whose hosts list contains current_host
exactly once, topology resolution computes rank equal to the index of
current_host in hosts (the value set into XRT_HOST_ORDINAL) and
world_size equal to the number of hosts (the value set into
XRT_SHARD_WORLD_SIZE). -/
theorem resolve_rank_of_unique_host (m : Manifest) (wp mp : Nat) (env : Env)
    (h : m.hosts.count m.current_host = 1) :
    (resolve m wp mp).rank = m.hosts.indexOf m.current_host ∧
    (resolve m wp mp).world_size = m.hosts.length ∧
    getEnv (projectTopology env (resolve m wp mp)) "XRT_HOST_ORDINAL"
      = some (toString (m.hosts.indexOf m.current_host)) ∧
    getEnv (projectTopology env (resolve m wp mp)) "XRT_SHARD_WORLD_SIZE"
      = some (toString m.hosts.length) := by
  have hrank : (resolve m wp mp).rank = m.hosts.indexOf m.current_host := by
    show (topologyLoop m.current_host wp m.hosts 0 0).1 = m.hosts.indexOf m.current_host
    rw [topologyLoop_fst_of_count_one m.current_host wp m.hosts 0 0 h]
    omega
  have hws : (resolve m wp mp).world_size = m.hosts.length := rfl
  refine ⟨hrank, hws, ?_, ?_⟩
  · rw [getEnv_projectTopology_ordinal, hrank]
  · rw [getEnv_projectTopology_world, hws]

/-- Witness for claim C1 at the scenario manifest of the spec:
current_host h1 at index 1 among three hosts. -/
theorem resolve_rank_of_unique_host_witness :
    ["h0", "h1", "h2"].count "h1" = 1 ∧
    ((resolve ⟨"h1", ["h0", "h1", "h2"]⟩ 43857 53957).rank
        = ["h0", "h1", "h2"].indexOf "h1" ∧
      (resolve ⟨"h1", ["h0", "h1", "h2"]⟩ 43857 53957).world_size
        = ["h0", "h1", "h2"].length ∧
      getEnv (projectTopology [] (resolve ⟨"h1", ["h0", "h1", "h2"]⟩ 43857 53957))
          "XRT_HOST_ORDINAL" = some (toString (["h0", "h1", "h2"].indexOf "h1")) ∧
      getEnv (projectTopology [] (resolve ⟨"h1", ["h0", "h1", "h2"]⟩ 43857 53957))
          "XRT_SHARD_WORLD_SIZE" = some (toString (["h0", "h1", "h2"].length))) :=
  ⟨by decide, resolve_rank_of_unique_host ⟨"h1", ["h0", "h1", "h2"]⟩ 43857 53957 [] (by decide)⟩

/-- Claim C9: for every non-empty manifest whose hosts list does not
contain current_host, resolution does not fail: the rank is 0, and the
world size, worker list and coordinator endpoint are computed exactly as
for any other current_host value over the same hosts list. -/
theorem resolve_rank_fallback (current c : String) (hosts : List String) (wp mp : Nat)
    (hne : hosts ≠ []) (hmem : current ∉ hosts) :
    (resolve ⟨current, hosts⟩ wp mp).rank = 0 ∧
    (resolve ⟨current, hosts⟩ wp mp).world_size = hosts.length ∧
    (resolve ⟨current, hosts⟩ wp mp).xrt_workers = (resolve ⟨c, hosts⟩ wp mp).xrt_workers ∧
    (resolve ⟨current, hosts⟩ wp mp).mesh_service_address
      = (resolve ⟨c, hosts⟩ wp mp).mesh_service_address := by
  refine ⟨?_, rfl, ?_, rfl⟩
  · show (topologyLoop current wp hosts 0 0).1 = 0
    exact topologyLoop_fst_of_not_mem current wp hosts 0 0 hmem
  · show (topologyLoop current wp hosts 0 0).2 = (topologyLoop c wp hosts 0 0).2
    exact topologyLoop_snd_indep current c wp hosts 0 0 0

/-- Witness for claim C9: an unresolvable current_host over two hosts
falls back to rank 0 with the usual world size, workers and endpoint. -/
theorem resolve_rank_fallback_witness :
    ["h0", "h1"] ≠ ([] : List String) ∧
    "algo-9" ∉ ["h0", "h1"] ∧
    ((resolve ⟨"algo-9", ["h0", "h1"]⟩ 43857 53957).rank = 0 ∧
      (resolve ⟨"algo-9", ["h0", "h1"]⟩ 43857 53957).world_size = ["h0", "h1"].length ∧
      (resolve ⟨"algo-9", ["h0", "h1"]⟩ 43857 53957).xrt_workers
        = (resolve ⟨"h0", ["h0", "h1"]⟩ 43857 53957).xrt_workers ∧
      (resolve ⟨"algo-9", ["h0", "h1"]⟩ 43857 53957).mesh_service_address
        = (resolve ⟨"h0", ["h0", "h1"]⟩ 43857 53957).mesh_service_address) :=
  ⟨by decide, by decide,
    resolve_rank_fallback "algo-9" "h0" ["h0", "h1"] 43857 53957 (by decide) (by decide)⟩

/-- Claim C5: with exactly one host no coordinator endpoint is produced
and XRT_MESH_SERVICE_ADDRESS is left unset; with more than one host the
endpoint is the first host paired with the mesh service port, and that
is the value set into XRT_MESH_SERVICE_ADDRESS. -/
theorem resolve_mesh_endpoint (m : Manifest) (wp mp : Nat) (env : Env) :
    (m.hosts.length = 1 →
      (resolve m wp mp).mesh_service_address = none ∧
      getEnv (projectTopology env (resolve m wp mp)) "XRT_MESH_SERVICE_ADDRESS"
        = getEnv env "XRT_MESH_SERVICE_ADDRESS") ∧
    (1 < m.hosts.length →
      ∃ h t, m.hosts = h :: t ∧
        (resolve m wp mp).mesh_service_address = some (h ++ ":" ++ toString mp) ∧
        getEnv (projectTopology env (resolve m wp mp)) "XRT_MESH_SERVICE_ADDRESS"
          = some (h ++ ":" ++ toString mp)) := by
  constructor
  · intro h1
    have hgt : ¬ m.hosts.length > 1 := by omega
    have hmesh : (resolve m wp mp).mesh_service_address = none := by
      show (if m.hosts.length > 1 then
        m.hosts.head?.map (fun h => h ++ ":" ++ toString mp) else none) = none
      rw [if_neg hgt]
    exact ⟨hmesh, getEnv_projectTopology_mesh_none env _ hmesh⟩
  · intro h1
    obtain ⟨h, t, hht⟩ : ∃ h t, m.hosts = h :: t := by
      cases hh : m.hosts with
      | nil => rw [hh] at h1; simp at h1
      | cons a b => exact ⟨a, b, rfl⟩
    have hmesh : (resolve m wp mp).mesh_service_address = some (h ++ ":" ++ toString mp) := by
      show (if m.hosts.length > 1 then
        m.hosts.head?.map (fun x => x ++ ":" ++ toString mp) else none)
        = some (h ++ ":" ++ toString mp)
      rw [if_pos h1, hht]
      rfl
    exact ⟨h, t, hht, hmesh, getEnv_projectTopology_mesh_some env _ _ hmesh⟩

/-- Witness for claim C5: a single-host manifest projects no mesh
service address; a two-host manifest projects the first host with the
mesh service port. -/
theorem resolve_mesh_endpoint_witness :
    ((resolve ⟨"h0", ["h0"]⟩ 43857 53957).mesh_service_address = none ∧
      getEnv (projectTopology [] (resolve ⟨"h0", ["h0"]⟩ 43857 53957))
          "XRT_MESH_SERVICE_ADDRESS" = getEnv [] "XRT_MESH_SERVICE_ADDRESS") ∧
    (∃ h t, ["h0", "h1"] = h :: t ∧
      (resolve ⟨"h0", ["h0", "h1"]⟩ 43857 53957).mesh_service_address
        = some (h ++ ":" ++ toString 53957) ∧
      getEnv (projectTopology [] (resolve ⟨"h0", ["h0", "h1"]⟩ 43857 53957))
          "XRT_MESH_SERVICE_ADDRESS" = some (h ++ ":" ++ toString 53957)) :=
  ⟨(resolve_mesh_endpoint ⟨"h0", ["h0"]⟩ 43857 53957 []).1 (by decide),
   (resolve_mesh_endpoint ⟨"h0", ["h0", "h1"]⟩ 43857 53957 []).2 (by decide)⟩

/-- Claim C2 counterexample: a manifest with an empty hosts list does
not make resolution fail and does not abort the launch; resolution
succeeds with rank 0, world size 0, an empty worker list and no
coordinator endpoint, so the launch proceeds to spawn. -/
theorem resolveConfig_empty_hosts_counterexample :
    resolveConfig ⟨some "algo-1", some []⟩ 43857 53957
      = some { rank := 0, world_size := 0, xrt_workers := [], mesh_service_address := none } := by
  decide

/-- Claim C2 (amended): topology resolution fails only when the
current_host key or the hosts key is missing from the manifest (a
KeyError; the code has no ConfigError); an empty hosts list causes no
error, and resolution then yields rank 0, world size 0, no workers and
no coordinator endpoint, with the launch proceeding. -/
theorem resolveConfig_failure_characterisation (cfg : RawConfig) (wp mp : Nat) (ch : String) :
    (resolveConfig cfg wp mp = none ↔ cfg.current_host = none ∨ cfg.hosts = none) ∧
    resolveConfig ⟨some ch, some []⟩ wp mp
      = some { rank := 0, world_size := 0, xrt_workers := [], mesh_service_address := none } := by
  constructor
  · obtain ⟨och, oh⟩ := cfg
    cases och <;> cases oh <;> simp [resolveConfig]
  · rfl

/-- Claim C3: on every even-length flat argument sequence, viewed as
(flag, value) pairs, the forwarder emits per pair and in pair order the
flag alone for value "True", nothing for value "False", and flag then
value otherwise; in particular the spec round-trip example holds. -/
theorem forward_even_length_pairs :
    (∀ ps : List (String × String), forward (flattenPairs ps) = some (specForward ps)) ∧
    forward ["--a", "True", "--b", "False", "--c", "5"] = some ["--a", "--c", "5"] := by
  constructor
  · intro ps
    induction ps with
    | nil => rfl
    | cons p rest ih =>
        obtain ⟨f, v⟩ := p
        show (forward (flattenPairs rest)).map
          (fun out => if v = "True" then f :: out
            else if v = "False" then out
            else f :: v :: out) = some (specForward ((f, v) :: rest))
        rw [ih]
        by_cases hT : v = "True"
        · simp [specForward, specEmitPair, hT]
        · by_cases hF : v = "False"
          · simp [specForward, specEmitPair, hT, hF]
          · simp [specForward, specEmitPair, hT, hF]
  · decide

/-- Claim C4 counterexample: on the odd-length input
["--x", "1", "--a"] the forwarder does not drop the trailing flag and
emit the preceding pair; it fails (IndexError, modelled as none). -/
theorem forward_odd_counterexample : forward ["--x", "1", "--a"] = none := by
  decide

/-- Claim C4 (amended): on every odd-length flat argument sequence the
forwarder raises IndexError while reading the missing value of the
trailing unpaired flag: no forwarded output is produced at all, rather
than the trailing flag being dropped with a warning. -/
theorem forward_odd_length_fails (ps : List (String × String)) (f : String) :
    forward (flattenPairs ps ++ [f]) = none := by
  induction ps with
  | nil => rfl
  | cons p rest ih =>
      obtain ⟨a, b⟩ := p
      show (forward (flattenPairs rest ++ [f])).map
        (fun out => if b = "True" then a :: out
          else if b = "False" then out
          else a :: b :: out) = none
      rw [ih]
      rfl

theorem forward_fixed_of_clean : ∀ ys : List String, ys.length % 2 = 0 →
    "True" ∉ ys → "False" ∉ ys → forward ys = some ys
  | [], _, _, _ => rfl
  | [a], hlen, _, _ => by simp [List.length_cons] at hlen
  | a :: b :: rest, hlen, hT, hF => by
      have hbT : ¬ b = "True" := by
        intro hh; exact hT (by simp [hh])
      have hbF : ¬ b = "False" := by
        intro hh; exact hF (by simp [hh])
      have hrT : "True" ∉ rest := fun hh => hT (by simp [hh])
      have hrF : "False" ∉ rest := fun hh => hF (by simp [hh])
      have hrl : rest.length % 2 = 0 := by
        simp only [List.length_cons] at hlen
        omega
      have ih := forward_fixed_of_clean rest hrl hrT hrF
      show (forward rest).map
        (fun out => if b = "True" then a :: out
          else if b = "False" then out
          else a :: b :: out) = some (a :: b :: rest)
      rw [ih]
      simp [hbT, hbF]

/-- Claim C8 (amended): for every flat argument sequence whose forwarded
output has even length and contains no "True" or "False" strings,
re-forwarding the output returns it unchanged, so forward is idempotent
there; odd-length outputs instead make the re-forwarding fail. -/
theorem forward_idempotent_on_even_clean (xs ys : List String)
    (hxs : forward xs = some ys) (hlen : ys.length % 2 = 0)
    (hT : "True" ∉ ys) (hF : "False" ∉ ys) :
    forward ys = some ys ∧ forward ys = forward xs := by
  have h := forward_fixed_of_clean ys hlen hT hF
  exact ⟨h, by rw [h, hxs]⟩

/-- Witness for claim C8 (amended): the output of forwarding
["--a", "True", "--b", "True"] is ["--a", "--b"], which has even length,
no "True" or "False", and re-forwards to itself. -/
theorem forward_idempotent_on_even_clean_witness :
    forward ["--a", "True", "--b", "True"] = some ["--a", "--b"] ∧
    ["--a", "--b"].length % 2 = 0 ∧
    "True" ∉ ["--a", "--b"] ∧
    "False" ∉ ["--a", "--b"] ∧
    (forward ["--a", "--b"] = some ["--a", "--b"] ∧
      forward ["--a", "--b"] = forward ["--a", "True", "--b", "True"]) :=
  ⟨by decide, by decide, by decide, by decide,
    forward_idempotent_on_even_clean ["--a", "True", "--b", "True"] ["--a", "--b"]
      (by decide) (by decide) (by decide) (by decide)⟩

/-- Claim C8 counterexample: the forwarded output of ["--a", "True"] is
["--a"], which contains no "True" or "False", yet re-forwarding it does
not reproduce it: the odd-length output makes the forwarder fail. -/
theorem forward_reforward_counterexample :
    forward ["--a", "True"] = some ["--a"] ∧
    "True" ∉ ["--a"] ∧
    "False" ∉ ["--a"] ∧
    forward ["--a"] ≠ forward ["--a", "True"] := by
  decide

end SmDist

namespace TrainingCompiler

open PyModel

/-- Claim C6 counterexample: a key that is present in the environment
with the empty string as its value is overwritten by _set_flags without
a warning, because the guard tests truthiness of the value instead of
presence of the key. -/
theorem set_flags_overwrite_counterexample :
    set_flags [("PT_XLA_DEBUG", "")] "PT_XLA_DEBUG" "1"
      = ([("PT_XLA_DEBUG", "1")], false) := by
  decide

/-- Claim C6 (amended): _set_flags never overwrites a key whose current
value is non-empty; in that case the environment is left unchanged and a
warning is logged; a key that is absent, or present with the empty
string as its value, is written. -/
theorem set_flags_nonempty_guard (env : Env) (key value : String) :
    ((getEnv env key).getD "" ≠ "" → set_flags env key value = (env, true)) ∧
    ((getEnv env key).getD "" = "" → set_flags env key value = (setEnv env key value, false)) := by
  unfold set_flags
  constructor <;> intro h <;> simp [h]

/-- Witness for claim C6 (amended): a present non-empty key is kept with
a warning; an absent key is written without one. -/
theorem set_flags_nonempty_guard_witness :
    set_flags [("XLA_IR_DEBUG", "1")] "XLA_IR_DEBUG" "1" = ([("XLA_IR_DEBUG", "1")], true) ∧
    set_flags [] "XLA_IR_DEBUG" "1" = (setEnv [] "XLA_IR_DEBUG" "1", false) :=
  ⟨(set_flags_nonempty_guard [("XLA_IR_DEBUG", "1")] "XLA_IR_DEBUG" "1").1 (by decide),
   (set_flags_nonempty_guard [] "XLA_IR_DEBUG" "1").2 (by decide)⟩

theorem pyStartsWith_trans_append (t p q : String) (h : pyStartsWith t (p ++ q) = true) :
    pyStartsWith t p = true := by
  unfold pyStartsWith at h ⊢
  rw [ List.isPrefixOf_iff_prefix] at h ⊢
  rw [String.data_append] at h
  exact List.IsPrefix.trans ⟨q.data, rfl⟩ h

theorem pyStartsWith_of_exactKeyToken (key t : String) (h : exactKeyToken key t = true) :
    pyStartsWith t ("--" ++ key) = true := by
  unfold exactKeyToken at h
  rw [Bool.or_eq_true] at h
  rcases h with h1 | h2
  · have ht : t = "--" ++ key := beq_iff_eq.mp h1
    subst ht
    unfold pyStartsWith
    rw [ List.isPrefixOf_iff_prefix]
  · exact pyStartsWith_trans_append t ("--" ++ key) "=" h2

theorem exactKeyPresent_empty (key : String) : exactKeyPresent "" key = false := by
  have hkey : ("--" ++ key).data = '-' :: '-' :: key.data := by
    rw [String.data_append]; rfl
  have h1 : ((⟨[]⟩ : String) == "--" ++ key) = false := by
    rw [beq_eq_false_iff_ne]
    intro hh
    have hdata := congrArg String.data hh
    rw [hkey] at hdata
    exact absurd hdata (by simp)
  have h2 : pyStartsWith ⟨[]⟩ ("--" ++ key ++ "=") = false := by
    unfold pyStartsWith
    rw [String.data_append, hkey]
    rfl
  show List.any [(⟨[]⟩ : String)] (exactKeyToken key) = false
  simp only [List.any_cons, List.any_nil, exactKeyToken, h1, h2, Bool.or_self, Bool.or_false]

/-- Claim C7: _set_xla_flags appends a new token for the key only if
that exact key is not already present among the space-separated tokens
of XLA_FLAGS; when the exact key is present as a token it warns and
leaves the environment unchanged. -/
theorem set_xla_flags_exact_key (env : Env) (key : String) (value : Option String) :
    (exactKeyPresent ((getEnv env "XLA_FLAGS").getD "") key = true →
      set_xla_flags env key value = (env, true)) ∧
    ((set_xla_flags env key value).2 = false →
      exactKeyPresent ((getEnv env "XLA_FLAGS").getD "") key = false) := by
  have main : exactKeyPresent ((getEnv env "XLA_FLAGS").getD "") key = true →
      set_xla_flags env key value = (env, true) := by
    intro h
    by_cases hpre : (getEnv env "XLA_FLAGS").getD "" = ""
    · rw [hpre, exactKeyPresent_empty] at h
      cases h
    · have hany : ((pySplit ((getEnv env "XLA_FLAGS").getD "") ' ').any
          (fun t => pyStartsWith t ("--" ++ key))) = true := by
        unfold exactKeyPresent at h
        rw [List.any_eq_true] at h
        obtain ⟨t, ht, hx⟩ := h
        rw [List.any_eq_true]
        exact ⟨t, ht, pyStartsWith_of_exactKeyToken key t hx⟩
      simp only [set_xla_flags]
      rw [if_pos hpre, if_pos hany]
  refine ⟨main, ?_⟩
  intro h2
  rcases Bool.eq_false_or_eq_true (exactKeyPresent ((getEnv env "XLA_FLAGS").getD "") key)
    with hb | hb
  · rw [main hb] at h2
    cases h2
  · exact hb

/-- Witness for claim C7: with the exact key foo present in XLA_FLAGS
the setter warns and changes nothing; when the setter did append (no
warning), the exact key was absent from the tokens. -/
theorem set_xla_flags_exact_key_witness :
    set_xla_flags [("XLA_FLAGS", "--foo=1 --bar")] "foo" (some "2")
      = ([("XLA_FLAGS", "--foo=1 --bar")], true) ∧
    exactKeyPresent ((getEnv [("XLA_FLAGS", "--baz")] "XLA_FLAGS").getD "") "foo" = false :=
  ⟨(set_xla_flags_exact_key [("XLA_FLAGS", "--foo=1 --bar")] "foo" (some "2")).1 (by decide),
   (set_xla_flags_exact_key [("XLA_FLAGS", "--baz")] "foo" (some "2")).2 (by decide)⟩

theorem map_hp_to_config_error (params : List (String × PyVal))
    (hen : pyTruthyVal ((dictGet params "sagemaker_training_compiler_enabled").getD
      (PyVal.bool false)) = false) :
    map_hp_to_config params = Except.error "AttributeError" := by
  simp [map_hp_to_config, hen]

/-- Claim C10: for every parsed SM_FRAMEWORK_PARAMS object that has at
least one key with the sagemaker_training_compiler_ prefix but in which
sagemaker_training_compiler_enabled is absent or falsy, constructing
TrainingCompilerConfig raises AttributeError: map_hp_to_config reads
self.debug in its final log statement although self.debug is only
assigned when the compiler is enabled. -/
theorem initTCC_attribute_error (all_params : List (String × PyVal))
    (hne : all_params.filter (fun p => pyStartsWith p.1 "sagemaker_training_compiler_") ≠ [])
    (hen : pyTruthyVal ((dictGet (all_params.filter
        (fun p => pyStartsWith p.1 "sagemaker_training_compiler_"))
        "sagemaker_training_compiler_enabled").getD (PyVal.bool false)) = false) :
    initTCC false (some all_params) = Except.error "AttributeError" := by
  have hmap := map_hp_to_config_error _ hen
  cases hps : all_params.filter (fun p => pyStartsWith p.1 "sagemaker_training_compiler_") with
  | nil => exact absurd hps hne
  | cons q qs =>
      rw [hps] at hmap
      simp only [initTCC, hps]
      simp [hmap, Except.map]

/-- Witness for claim C10: a parameter object holding only the prefixed
debug-mode key (so the enabled key is absent) makes construction fail
with AttributeError. -/
theorem initTCC_attribute_error_witness :
    ([("sagemaker_training_compiler_debug_mode", PyVal.bool true)].filter
        (fun p => pyStartsWith p.1 "sagemaker_training_compiler_")) ≠ [] ∧
    pyTruthyVal ((dictGet ([("sagemaker_training_compiler_debug_mode", PyVal.bool true)].filter
        (fun p => pyStartsWith p.1 "sagemaker_training_compiler_"))
        "sagemaker_training_compiler_enabled").getD (PyVal.bool false)) = false ∧
    initTCC false (some [("sagemaker_training_compiler_debug_mode", PyVal.bool true)])
      = Except.error "AttributeError" :=
  ⟨by decide, by decide,
    initTCC_attribute_error [("sagemaker_training_compiler_debug_mode", PyVal.bool true)]
      (by decide) (by decide)⟩

end TrainingCompiler
